import Mathlib

/-!
Verification of the company-information extraction pipeline (`main.py`).

The development shallowly embeds the two pieces of real logic of the
repository and the CSV exporters:

* `_normalize_date` (source lines 98-137): the regex-based date normalizer.
  The three regex features the source uses are modelled directly over
  `List Char`: word-boundary filler-word removal (`re.sub` with
  `IGNORECASE`), first-match-anywhere search (`re.search`) and the five
  date patterns with greedy `\d` quantifiers.
* `process_text_direct` (lines 194-219): the paragraph pipeline.  The
  external extraction service is a parameter `service : String → Except
  String PyVal` (an exception or a loosely typed JSON-like value), and the
  file system is a pair of parameters `openF` / `writeF` so that I/O
  failures can be analysed.  Python values are modelled by `PyVal`;
  a Python exception inside a paragraph is an `Option`/`Except` failure.
* `_save_companies_to_csv` (lines 221-233, no try/except: errors
  propagate) and the tool `save_to_csv` (lines 156-177, try/except
  returning a status string).

All definitions are executable and structurally recursive, so concrete
runs evaluate by `decide` / `rfl`.
-/

/-- Python values as returned by the JSON output parser: the untrusted
`RawExtractionResult` shape.  Dict keys are strings (JSON objects). -/
inductive PyVal where
  | none : PyVal
  | bool : Bool → PyVal
  | int : Int → PyVal
  | str : String → PyVal
  | list : List PyVal → PyVal
  | dict : List (String × PyVal) → PyVal
deriving Repr

/-- The `CompanyInfo` dataclass (source lines 21-26).  Python dataclasses do
not check field types, so `company_name` and `founders` hold whatever value
`dict.get` returned; `founding_date` is always a string because it is the
result of `_normalize_date`. -/
structure CompanyInfo where
  company_name : PyVal
  founding_date : String
  founders : PyVal
deriving Repr

/-! ## Characters and Python string helpers -/

/-- The characters Python's `str.strip()` removes (ASCII whitespace). -/
def pyIsSpace (c : Char) : Bool :=
  c == ' ' || c == '\t' || c == '\n' || c == '\r' || c == '\x0b' || c == '\x0c'

/-- `str.strip()` on a character list: drop whitespace from both ends. -/
def stripList (cs : List Char) : List Char :=
  ((cs.dropWhile pyIsSpace).reverse.dropWhile pyIsSpace).reverse

/-- A regex word character (`\w`), restricted to the ASCII range the inputs
use. -/
def isWordChar (c : Char) : Bool :=
  c.isAlphanum || c == '_'

/-- Case-insensitive match of one lowercase pattern letter `w` against an
input character (the effect of `re.IGNORECASE` on an ASCII letter). -/
def ciMatch (w c : Char) : Bool :=
  c == w || c == w.toUpper

/-- Match a literal word (given lowercase) case-insensitively against the
start of the input, returning the remainder on success. -/
def stripCI : List Char → List Char → Option (List Char)
  | [], cs => some cs
  | _ :: _, [] => Option.none
  | w :: ws, c :: cs => if ciMatch w c then stripCI ws cs else Option.none

/-- One alternative of the filler-word regex
`\b(in|on|during|established|founded|created)\b` at the current position:
the literal word followed by a trailing word boundary.  (All six words end
in a letter, so the trailing `\b` holds iff the next character is not a
word character.) -/
def wordAlt (w : List Char) (cs : List Char) : Option (List Char) :=
  match stripCI w cs with
  | some rest =>
    match rest with
    | [] => some []
    | c :: _ => if isWordChar c then Option.none else some rest
  | Option.none => Option.none

/-- Try the six filler-word alternatives in the regex's order at the
current position.  (The leading `\b` is handled by the caller: all six
words begin with a letter, so a match is possible only when the previous
character is not a word character.) -/
def tryFiller (cs : List Char) : Option (List Char) :=
  (wordAlt ['i', 'n'] cs).orElse fun _ =>
  (wordAlt ['o', 'n'] cs).orElse fun _ =>
  (wordAlt ['d', 'u', 'r', 'i', 'n', 'g'] cs).orElse fun _ =>
  (wordAlt ['e', 's', 't', 'a', 'b', 'l', 'i', 's', 'h', 'e', 'd'] cs).orElse fun _ =>
  (wordAlt ['f', 'o', 'u', 'n', 'd', 'e', 'd'] cs).orElse fun _ =>
  wordAlt ['c', 'r', 'e', 'a', 't', 'e', 'd'] cs

/-- The scan of `re.sub(r'\b(in|on|during|established|founded|created)\b',
'', s, flags=re.IGNORECASE)`: walk the string left to right; at a position
whose previous character is not a word character, try the alternation and
on success drop the matched word and continue after it (every filler word
ends in a word character, so `prevWord` becomes true); otherwise keep the
character.  `fuel` bounds the recursion and is adequate whenever
`fuel ≥ cs.length` since every step consumes at least one character. -/
def subFGo : Nat → Bool → List Char → List Char
  | 0, _, _ => []
  | _ + 1, _, [] => []
  | fuel + 1, true, c :: rest => c :: subFGo fuel (isWordChar c) rest
  | fuel + 1, false, c :: rest =>
    match tryFiller (c :: rest) with
    | some rest2 => subFGo fuel true rest2
    | Option.none => c :: subFGo fuel (isWordChar c) rest

/-- `re.sub(r'\b(in|on|during|established|founded|created)\b', '', s,
flags=re.IGNORECASE)` (source line 104, without the final `.strip()`). -/
def removeFillerWords (cs : List Char) : List Char :=
  subFGo cs.length false cs

/-- `clean_date` (source line 104): filler-word removal followed by
`.strip()`. -/
def clean_date (date_str : String) : String :=
  String.mk (stripList (removeFillerWords date_str.toList))

/-! ## The five date patterns

Each pattern is modelled as a matcher at a fixed position; `searchP` then
implements `re.search`'s leftmost-match scan.  The quantifier `\d{1,2}` is
greedy with backtracking; since a following literal separator is never a
digit, the backtracking is the deterministic choice written below. -/

/-- `(\d{4})`: exactly four digits (further digits may follow; the regex
has no anchor). -/
def digits4 : List Char → Option (List Char × List Char)
  | a :: b :: c :: d :: rest =>
    if a.isDigit && b.isDigit && c.isDigit && d.isDigit then
      some ([a, b, c, d], rest)
    else Option.none
  | _ => Option.none

/-- A literal character in the pattern. -/
def expectChar (x : Char) : List Char → Option (List Char)
  | c :: rest => if c == x then some rest else Option.none
  | [] => Option.none

/-- `(\d{1,2})` followed by the literal `sep`, consuming both: greedily try
two digits, and on failure of the following literal backtrack to one. -/
def d12Sep (sep : Char) : List Char → Option (List Char × List Char)
  | a :: b :: c :: rest =>
    if a.isDigit then
      if b.isDigit && (c == sep) then some ([a, b], rest)
      else if b == sep then some ([a], c :: rest)
      else Option.none
    else Option.none
  | [a, b] =>
    if a.isDigit && (b == sep) then some ([a], []) else Option.none
  | _ => Option.none

/-- `(\d{1,2})` at the end of a pattern: greedily take two digits when
available, else one. -/
def d12End : List Char → Option (List Char × List Char)
  | a :: b :: rest =>
    if a.isDigit then
      if b.isDigit then some ([a, b], rest) else some ([a], b :: rest)
    else Option.none
  | [a] => if a.isDigit then some ([a], []) else Option.none
  | [] => Option.none

/-- Pattern `(\d{4})-(\d{1,2})-(\d{1,2})` at the current position.  `none`
is the "no match here" outcome; a match returns the three capture groups. -/
def matchP1At (cs : List Char) : Option (String × String × String) := do
  let (y, r1) ← digits4 cs
  let r2 ← expectChar '-' r1
  let (m, r3) ← d12Sep '-' r2
  let (d, _) ← d12End r3
  return (String.mk y, String.mk m, String.mk d)

/-- Pattern `(\d{1,2})/(\d{1,2})/(\d{4})` at the current position.  The
groups are returned in pattern order: month, day, year. -/
def matchP2At (cs : List Char) : Option (String × String × String) := do
  let (m, r1) ← d12Sep '/' cs
  let (d, r2) ← d12Sep '/' r1
  let (y, _) ← digits4 r2
  return (String.mk m, String.mk d, String.mk y)

/-- Pattern `(\d{4})/(\d{1,2})/(\d{1,2})` at the current position. -/
def matchP3At (cs : List Char) : Option (String × String × String) := do
  let (y, r1) ← digits4 cs
  let r2 ← expectChar '/' r1
  let (m, r3) ← d12Sep '/' r2
  let (d, _) ← d12End r3
  return (String.mk y, String.mk m, String.mk d)

/-- Pattern `(\d{4})-(\d{1,2})` at the current position. -/
def matchP4At (cs : List Char) : Option (String × String) := do
  let (y, r1) ← digits4 cs
  let r2 ← expectChar '-' r1
  let (m, _) ← d12End r2
  return (String.mk y, String.mk m)

/-- Pattern `(\d{4})` at the current position. -/
def matchP5At (cs : List Char) : Option String := do
  let (y, _) ← digits4 cs
  return String.mk y

/-- `re.search`: try the pattern at each position from the left; the first
position where it matches wins. -/
def searchP {α : Type} (m : List Char → Option α) : List Char → Option α
  | [] => m []
  | c :: rest =>
    match m (c :: rest) with
    | some r => some r
    | Option.none => searchP m rest

/-- Python `str.zfill(2)`: left-pad with `'0'` to width two. -/
def zfill2 (s : String) : String :=
  if s.length ≥ 2 then s
  else if s.length = 1 then "0" ++ s
  else "00"

/-- `f"{year}-{month.zfill(2)}-{day.zfill(2)}"` (source lines 123/127). -/
def fmtYMD (y m d : String) : String :=
  y ++ "-" ++ zfill2 m ++ "-" ++ zfill2 d

/-- The character list each pattern is searched in: the cleaned string. -/
def cleanList (s : String) : List Char :=
  (clean_date s).toList

/-- `_normalize_date` (source lines 98-137): empty input returns `""`;
otherwise the five patterns are tried in the fixed priority order against
the cleaned string, the US slash pattern reads its groups as
month/day/year and the others as year/month/day, and if no pattern matches
the ORIGINAL input string is returned (source line 137). -/
def _normalize_date (date_str : String) : String :=
  if date_str = "" then ""
  else
    match searchP matchP1At (cleanList date_str) with
    | some (y, m, d) => fmtYMD y m d
    | Option.none =>
      match searchP matchP2At (cleanList date_str) with
      | some (m, d, y) => fmtYMD y m d
      | Option.none =>
        match searchP matchP3At (cleanList date_str) with
        | some (y, m, d) => fmtYMD y m d
        | Option.none =>
          match searchP matchP4At (cleanList date_str) with
          | some (y, m) => y ++ "-" ++ zfill2 m ++ "-01"
          | Option.none =>
            match searchP matchP5At (cleanList date_str) with
            | some y => y ++ "-01-01"
            | Option.none => date_str

/-- Whether any of the five date patterns matches (anywhere) in the
cleaned form of `s`: exactly the condition under which `_normalize_date`
does not take the fallback return of source line 137. -/
def datePatternFound (s : String) : Bool :=
  (searchP matchP1At (cleanList s)).isSome ||
  (searchP matchP2At (cleanList s)).isSome ||
  (searchP matchP3At (cleanList s)).isSome ||
  (searchP matchP4At (cleanList s)).isSome ||
  (searchP matchP5At (cleanList s)).isSome

/-- A string of shape `\d{4}-\d{2}-\d{2}` (canonical zero-padded output,
with no calendar-range validation). -/
def isCanonicalDate (s : String) : Bool :=
  match s.toList with
  | [a, b, c, d, e, f, g, h, i, j] =>
    a.isDigit && b.isDigit && c.isDigit && d.isDigit && (e == '-') &&
    f.isDigit && g.isDigit && (h == '-') && i.isDigit && j.isDigit
  | _ => false

/-! ## Validator and paragraph pipeline (`process_text_direct`, lines 194-219)

A Python exception inside the per-paragraph `try` block is modelled as an
`Option`/`Except` failure; the `except` clause catches it, keeps whatever
records were already appended, and continues with the next paragraph. -/

/-- First value bound to `k`, if any (`k in d` / `d[k]`). -/
def dictFind (d : List (String × PyVal)) (k : String) : Option PyVal :=
  (d.find? (fun kv => kv.1 == k)).map (fun kv => kv.2)

/-- Python `d.get(k, default)`. -/
def dictGet (d : List (String × PyVal)) (k : String) (default : PyVal) : PyVal :=
  (dictFind d k).getD default

/-- Python falsiness (`not v`). -/
def pyFalsy : PyVal → Bool
  | PyVal.none => true
  | PyVal.bool b => !b
  | PyVal.int n => n == 0
  | PyVal.str s => s == ""
  | PyVal.list l => l.isEmpty
  | PyVal.dict d => d.isEmpty

/-- `self._normalize_date(v)` applied to an arbitrary Python value: a
string goes through `_normalize_date`; a falsy non-string returns `""` at
the `if not date_str` guard (line 100-101); a truthy non-string reaches
`re.sub` which raises `TypeError` (modelled as `Option.none`). -/
def normalizeDateVal : PyVal → Option String
  | PyVal.str s => some (_normalize_date s)
  | v => if pyFalsy v then some "" else Option.none

/-- Construction of one `CompanyInfo` from a mapping-shaped entry (source
lines 207-211): `company_name` and `founders` are the raw `.get` results
with defaults `""` / `[]`; `founding_date` defaults to `""` and is passed
through `_normalize_date`, the only sub-expression that can raise for a
mapping-shaped entry. -/
def mkCompany (d : List (String × PyVal)) : Option CompanyInfo :=
  match normalizeDateVal (dictGet d "founding_date" (PyVal.str "")) with
  | some fd =>
    some { company_name := dictGet d "company_name" (PyVal.str "")
           founding_date := fd
           founders := dictGet d "founders" (PyVal.list []) }
  | Option.none => Option.none

/-- The `for company_data in result["companies"]` loop (lines 206-212).
Records are appended one at a time; the first element that raises (a
non-mapping element, whose `.get` raises `AttributeError`, or a
mapping-shaped element whose truthy non-string founding date makes
`_normalize_date` raise) aborts the loop — the records appended before it
are kept, the rest of the list is dropped. -/
def takeRecords : List PyVal → List CompanyInfo
  | [] => []
  | PyVal.dict d :: rest =>
    match mkCompany d with
    | some c => c :: takeRecords rest
    | Option.none => []
  | _ :: _ => []

/-- Records contributed by one successfully returned extraction result
(lines 205-212): the result must be a dict containing key `"companies"`
whose value is a list, otherwise zero records (a non-dict result or a
missing key skips the `if` block; a non-list `companies` value raises on
iteration — caught by the paragraph handler — before any record is
appended). -/
def extractParagraphRecords (result : PyVal) : List CompanyInfo :=
  match result with
  | PyVal.dict entries =>
    match dictFind entries "companies" with
    | some (PyVal.list l) => takeRecords l
    | some _ => []
    | Option.none => []
  | _ => []

/-- Python `text.split("\n\n")` on character lists: split at each
leftmost, non-overlapping occurrence of two consecutive newlines. -/
def splitNN : List Char → List (List Char)
  | '\n' :: '\n' :: rest => [] :: splitNN rest
  | c :: rest =>
    match splitNN rest with
    | [] => [[c]]
    | g :: gs => (c :: g) :: gs
  | [] => [[]]

/-- `[p.strip() for p in text.split('\n\n') if p.strip()]` (line 199). -/
def splitParagraphs (text : String) : List String :=
  ((splitNN text.toList).map (fun g => String.mk (stripList g))).filter
    (fun p => p ≠ "")

/-- The paragraph loop of `process_text_direct` (lines 201-215): each
paragraph is sent to the external service; a service exception, or an
exception while validating its result, is caught by the per-paragraph
`except` (lines 213-215) and processing continues with the next
paragraph. -/
def collectRecords (service : String → Except String PyVal) :
    List String → List CompanyInfo
  | [] => []
  | p :: ps =>
    (match service p with
     | Except.ok r => extractParagraphRecords r
     | Except.error _ => []) ++ collectRecords service ps

/-! ## CSV serialization (`_save_companies_to_csv`, lines 221-233, and the
`save_to_csv` tool, lines 156-177)

The file system is abstracted by two parameters: `openF` is the outcome of
`open(filename, 'w')` and `writeF line` the outcome of writing one CSV
record.  `csv.DictWriter` quoting (default `QUOTE_MINIMAL` dialect) is
modelled by `csvField`. -/

/-- Does a field need quoting under the default csv dialect? -/
def needsQuote (s : String) : Bool :=
  s.toList.any (fun c => c == ',' || c == '"' || c == '\n' || c == '\r')

/-- Double each quote character (csv escaping inside a quoted field). -/
def escQuotes : List Char → List Char
  | [] => []
  | c :: rest =>
    if c == '"' then '"' :: '"' :: escQuotes rest else c :: escQuotes rest

/-- One csv field, quoted when needed. -/
def csvField (s : String) : String :=
  if needsQuote s then String.mk ('"' :: (escQuotes s.toList ++ ['"'])) else s

/-- Join strings with a separator (Python `sep.join`,
`",".join` for csv rows). -/
def joinSep (sep : String) : List String → String
  | [] => ""
  | [x] => x
  | x :: xs => x ++ sep ++ joinSep sep xs

/-- A csv data row from its three already-serialized fields. -/
def csvLine (fields : List String) : String :=
  joinSep "," (fields.map csvField)

/-- Python `str(v)` for a non-string csv cell (`csv` stringifies non-string
values).  Exact `repr` formatting of nested containers is abstracted - no
claim depends on it; strings are returned verbatim as `str` does. -/
def pyStr : PyVal → String
  | PyVal.none => "None"
  | PyVal.bool true => "True"
  | PyVal.bool false => "False"
  | PyVal.int n => toString n
  | PyVal.str s => s
  | PyVal.list l => "[list of " ++ toString l.length ++ " items]"
  | PyVal.dict d => "[dict of " ++ toString d.length ++ " items]"

/-- `", ".join(v)` for an arbitrary Python value: joins a list of strings
(a non-string element raises `TypeError`), joins the characters of a
string, joins the (string) keys of a dict, and raises `TypeError` for a
non-iterable. -/
def pyJoin (sep : String) : PyVal → Except String String
  | PyVal.str s => Except.ok (joinSep sep (s.toList.map (fun c => String.mk [c])))
  | PyVal.list l =>
    match l.mapM (fun v => match v with
      | PyVal.str s => some s
      | _ => Option.none) with
    | some strs => Except.ok (joinSep sep strs)
    | Option.none => Except.error "TypeError: sequence item: expected str instance"
  | PyVal.dict d => Except.ok (joinSep sep (d.map (fun kv => kv.1)))
  | _ => Except.error "TypeError: can only join an iterable"

/-- The csv header row (line 224 / 161). -/
def headerLine : String :=
  "company_name,founding_date,founders"

/-- One data row of `_save_companies_to_csv` (lines 229-233): founders are
joined with `", "` (which raises for a non-joinable value), the other two
fields come straight from the record. -/
def companyRowLine (c : CompanyInfo) : Except String String :=
  match pyJoin ", " c.founders with
  | Except.error e => Except.error e
  | Except.ok fstr =>
    Except.ok (csvLine [pyStr c.company_name, c.founding_date, fstr])

/-- The row loop of `_save_companies_to_csv`: build and write each row in
order; the first failure (a `TypeError` from the join or an I/O error from
the write) propagates. -/
def writeCompanyRows (writeF : String → Except String Unit) :
    List CompanyInfo → Except String Unit
  | [] => Except.ok ()
  | c :: rest =>
    match companyRowLine c with
    | Except.error e => Except.error e
    | Except.ok line =>
      match writeF line with
      | Except.error e => Except.error e
      | Except.ok _ => writeCompanyRows writeF rest

/-- `_save_companies_to_csv` (lines 221-233).  There is NO try/except in
this function: any failure — opening the file, writing the header or a
row, or serializing a row — propagates to the caller as an exception
(`Except.error`). -/
def _save_companies_to_csv (openF : Except String Unit)
    (writeF : String → Except String Unit) (companies : List CompanyInfo) :
    Except String Unit :=
  match openF with
  | Except.error e => Except.error e
  | Except.ok _ =>
    match writeF headerLine with
    | Except.error e => Except.error e
    | Except.ok _ => writeCompanyRows writeF companies

/-- `process_text_direct` (lines 194-219): split into paragraphs, run the
per-paragraph loop (whose failures are caught), then call
`_save_companies_to_csv` on the accumulated records — outside any
try/except, so an exception there propagates to the caller — and return
the accumulated records. -/
def process_text_direct (service : String → Except String PyVal)
    (openF : Except String Unit) (writeF : String → Except String Unit)
    (text : String) : Except String (List CompanyInfo) :=
  match _save_companies_to_csv openF writeF
      (collectRecords service (splitParagraphs text)) with
  | Except.error e => Except.error e
  | Except.ok _ => Except.ok (collectRecords service (splitParagraphs text))

/-- One data row of the `save_to_csv` tool (lines 165-173): the element of
`companies_data` must be mapping-shaped (`.get` raises otherwise); founders
default to `[]` and are joined with `", "`; the other fields default to
`""` and are stringified by the csv writer. -/
def saveRow (v : PyVal) : Except String String :=
  match v with
  | PyVal.dict d =>
    match pyJoin ", " (dictGet d "founders" (PyVal.list [])) with
    | Except.error e => Except.error e
    | Except.ok fstr =>
      Except.ok (csvLine [pyStr (dictGet d "company_name" (PyVal.str "")),
        pyStr (dictGet d "founding_date" (PyVal.str "")), fstr])
  | _ => Except.error "AttributeError: no attribute get"

/-- The row loop of `save_to_csv`. -/
def writeToolRows (writeF : String → Except String Unit) :
    List PyVal → Except String Unit
  | [] => Except.ok ()
  | v :: rest =>
    match saveRow v with
    | Except.error e => Except.error e
    | Except.ok line =>
      match writeF line with
      | Except.error e => Except.error e
      | Except.ok _ => writeToolRows writeF rest

/-- The body of `save_to_csv`'s `try` block (lines 160-175): open, write
the header, write the rows. -/
def saveAttempt (openF : Except String Unit)
    (writeF : String → Except String Unit) (companies_data : List PyVal) :
    Except String Unit :=
  match openF with
  | Except.error e => Except.error e
  | Except.ok _ =>
    match writeF headerLine with
    | Except.error e => Except.error e
    | Except.ok _ => writeToolRows writeF companies_data

/-- The `save_to_csv` tool (lines 156-177): the whole body is wrapped in
try/except, so the function always RETURNS a status string — a success
message carrying the record count and filename, or an error message
carrying the exception's description. -/
def save_to_csv (openF : Except String Unit)
    (writeF : String → Except String Unit) (companies_data : List PyVal)
    (filename : String) : String :=
  match saveAttempt openF writeF companies_data with
  | Except.ok _ =>
    "Successfully saved " ++ toString companies_data.length ++
      " companies to " ++ filename
  | Except.error e => "Error saving to CSV: " ++ e

/-! ## Character-class lemmas -/

/-- A digit character is one of the ten ASCII digits. -/
theorem digit_cases (c : Char) (h : c.isDigit = true) :
    c = '0' ∨ c = '1' ∨ c = '2' ∨ c = '3' ∨ c = '4' ∨ c = '5' ∨ c = '6' ∨
    c = '7' ∨ c = '8' ∨ c = '9' := by
  simp only [Char.isDigit, ge_iff_le, Bool.and_eq_true, decide_eq_true_eq] at h
  obtain ⟨h1, h2⟩ := h
  have hn1 : 48 ≤ c.val.toNat := UInt32.le_toNat_of_le (by norm_num [UInt32.size]) h1
  have hn2 : c.val.toNat ≤ 57 := UInt32.toNat_le_of_le (by norm_num [UInt32.size]) h2
  have key : ∀ (d : Char), c.val.toNat = d.val.toNat → c = d :=
    fun d hd => Char.ext (UInt32.toNat.inj hd)
  have hd : c.val.toNat = 48 ∨ c.val.toNat = 49 ∨ c.val.toNat = 50 ∨
      c.val.toNat = 51 ∨ c.val.toNat = 52 ∨ c.val.toNat = 53 ∨
      c.val.toNat = 54 ∨ c.val.toNat = 55 ∨ c.val.toNat = 56 ∨
      c.val.toNat = 57 := by omega
  rcases hd with h|h|h|h|h|h|h|h|h|h
  · exact Or.inl (key '0' (h.trans (by decide)))
  · exact Or.inr (Or.inl (key '1' (h.trans (by decide))))
  · exact Or.inr (Or.inr (Or.inl (key '2' (h.trans (by decide)))))
  · exact Or.inr (Or.inr (Or.inr (Or.inl (key '3' (h.trans (by decide))))))
  · exact Or.inr (Or.inr (Or.inr (Or.inr (Or.inl (key '4' (h.trans (by decide)))))))
  · exact Or.inr (Or.inr (Or.inr (Or.inr (Or.inr (Or.inl (key '5' (h.trans (by decide))))))))
  · exact Or.inr (Or.inr (Or.inr (Or.inr (Or.inr (Or.inr (Or.inl (key '6' (h.trans (by decide)))))))))
  · exact Or.inr (Or.inr (Or.inr (Or.inr (Or.inr (Or.inr (Or.inr (Or.inl (key '7' (h.trans (by decide))))))))))
  · exact Or.inr (Or.inr (Or.inr (Or.inr (Or.inr (Or.inr (Or.inr (Or.inr (Or.inl (key '8' (h.trans (by decide)))))))))))
  · exact Or.inr (Or.inr (Or.inr (Or.inr (Or.inr (Or.inr (Or.inr (Or.inr (Or.inr (key '9' (h.trans (by decide)))))))))))

/-- The characters that appear in the date-shaped inputs of the claims:
digits and the two separators. -/
def inertChar (c : Char) : Prop :=
  c.isDigit = true ∨ c = '-' ∨ c = '/'

/-- No filler-word alternative can match at a position whose first
character is a digit or a separator. -/
theorem tryFiller_inert (c : Char) (cs : List Char) (h : inertChar c) :
    tryFiller (c :: cs) = Option.none := by
  rcases h with h | h | h
  · rcases digit_cases c h with rfl|rfl|rfl|rfl|rfl|rfl|rfl|rfl|rfl|rfl <;> rfl
  · subst h; rfl
  · subst h; rfl

/-- Digits and separators are not whitespace. -/
theorem pyIsSpace_inert (c : Char) (h : inertChar c) : pyIsSpace c = false := by
  rcases h with h | h | h
  · rcases digit_cases c h with rfl|rfl|rfl|rfl|rfl|rfl|rfl|rfl|rfl|rfl <;> rfl
  · subst h; rfl
  · subst h; rfl

/-- A digit is `beq`-distinct from any non-digit character. -/
theorem digit_beq_false (c t : Char) (hc : c.isDigit = true)
    (ht : t.isDigit = false) : (c == t) = false := by
  rcases hbe : c == t with _ | _
  · rfl
  · exact absurd (eq_of_beq hbe ▸ hc) (by simp [ht])

/-! ## The cleaning step is the identity on digit/separator strings -/

theorem dropWhile_eq_self_of (p : Char → Bool) (l : List Char)
    (h : ∀ c ∈ l, p c = false) : l.dropWhile p = l := by
  cases l with
  | nil => rfl
  | cons c rest => simp [List.dropWhile, h c (by simp)]

theorem stripList_id (cs : List Char) (h : ∀ c ∈ cs, pyIsSpace c = false) :
    stripList cs = cs := by
  unfold stripList
  rw [dropWhile_eq_self_of _ _ h,
      dropWhile_eq_self_of _ _ (fun c hc => h c (List.mem_reverse.mp hc)),
      List.reverse_reverse]

theorem subFGo_id (cs : List Char) : ∀ (fuel : Nat) (b : Bool),
    cs.length ≤ fuel → (∀ c ∈ cs, inertChar c) → subFGo fuel b cs = cs := by
  induction cs with
  | nil => intro fuel b _ _; cases fuel <;> cases b <;> rfl
  | cons c rest ih =>
    intro fuel b hfuel hin
    cases fuel with
    | zero => simp at hfuel
    | succ f =>
      have hrest : rest.length ≤ f := by simpa using hfuel
      have hinr : ∀ x ∈ rest, inertChar x := fun x hx => hin x (by simp [hx])
      cases b with
      | true => simpa [subFGo] using ih f (isWordChar c) hrest hinr
      | false =>
        simp only [subFGo, tryFiller_inert c rest (hin c (by simp))]
        simpa using ih f (isWordChar c) hrest hinr

/-- On a string of digits and separators the whole cleaning step (filler
removal plus strip) is the identity. -/
theorem cleanList_mk (cs : List Char) (h : ∀ c ∈ cs, inertChar c) :
    cleanList (String.mk cs) = cs := by
  unfold cleanList clean_date removeFillerWords
  have h1 : (String.mk cs).toList = cs := rfl
  rw [h1, subFGo_id cs cs.length false le_rfl h,
      stripList_id cs (fun c hc => pyIsSpace_inert c (h c hc))]
  rfl

/-! ## Lemmas about the pattern matchers -/

theorem slash_isDigit : ('/' : Char).isDigit = false := by decide

theorem dash_isDigit : ('-' : Char).isDigit = false := by decide

theorem digit_nsep (c : Char) (h : c.isDigit = true) : ¬(c = '/') ∧ ¬(c = '-') := by
  constructor <;> intro e <;> rw [e] at h <;> exact absurd h (by decide)

theorem list_len1 (l : List Char) (h : l.length = 1) : ∃ a, l = [a] := by
  cases l with
  | nil => simp at h
  | cons a t => cases t with
    | nil => exact ⟨a, rfl⟩
    | cons b t2 => simp at h

theorem list_len2 (l : List Char) (h : l.length = 2) : ∃ a b, l = [a, b] := by
  cases l with
  | nil => simp at h
  | cons a t => cases t with
    | nil => simp at h
    | cons b t2 => cases t2 with
      | nil => exact ⟨a, b, rfl⟩
      | cons c t3 => simp at h

theorem list_len4 (l : List Char) (h : l.length = 4) :
    ∃ a b c d, l = [a, b, c, d] := by
  cases l with
  | nil => simp at h
  | cons a t => cases t with
    | nil => simp at h
    | cons b t2 => cases t2 with
      | nil => simp at h
      | cons c t3 => cases t3 with
        | nil => simp at h
        | cons d t4 => cases t4 with
          | nil => exact ⟨a, b, c, d, rfl⟩
          | cons e t5 => simp at h

theorem mk_ne_empty (c : Char) (cs : List Char) : String.mk (c :: cs) ≠ "" := by
  intro h
  have h2 := congrArg String.toList h
  simp only [String.toList] at h2
  exact List.noConfusion h2

/-! ## Claims C4 and C5: the quantified date properties -/

/-- C4: for every 4-digit year `Y` and unpadded (1-2 digit) month `M` and
day `D`, the US slash form `M/D/Y` and the ISO dash form `Y-M-D` normalize
to the same canonical string `Y-{M:02d}-{D:02d}` under the fixed pattern
priority order (the ISO dash pattern is tried first and matches `Y-M-D` at
its first position; every position of `M/D/Y` fails the dash pattern, so
the US slash pattern, tried second, produces the match). -/
theorem c4_cross_format_equivalence (Y M D : List Char)
    (hY : Y.length = 4) (hYd : ∀ c ∈ Y, c.isDigit = true)
    (hM : M.length = 1 ∨ M.length = 2) (hMd : ∀ c ∈ M, c.isDigit = true)
    (hD : D.length = 1 ∨ D.length = 2) (hDd : ∀ c ∈ D, c.isDigit = true) :
    _normalize_date (String.mk (M ++ '/' :: (D ++ '/' :: Y))) =
      String.mk Y ++ "-" ++ zfill2 (String.mk M) ++ "-" ++ zfill2 (String.mk D) ∧
    _normalize_date (String.mk (Y ++ '-' :: (M ++ '-' :: D))) =
      String.mk Y ++ "-" ++ zfill2 (String.mk M) ++ "-" ++ zfill2 (String.mk D) := by
  obtain ⟨y1, y2, y3, y4, rfl⟩ := list_len4 Y hY
  obtain ⟨hy1, hy2, hy3, hy4⟩ : y1.isDigit = true ∧ y2.isDigit = true ∧
      y3.isDigit = true ∧ y4.isDigit = true := by
    refine ⟨hYd y1 ?_, hYd y2 ?_, hYd y3 ?_, hYd y4 ?_⟩ <;> simp
  constructor
  · -- slash form
    have hin : ∀ c ∈ M ++ '/' :: (D ++ '/' :: [y1, y2, y3, y4]), inertChar c := by
      intro c hc
      rcases List.mem_append.mp hc with h | h
      · exact Or.inl (hMd c h)
      · rcases List.mem_cons.mp h with rfl | h
        · exact Or.inr (Or.inr rfl)
        · rcases List.mem_append.mp h with h | h
          · exact Or.inl (hDd c h)
          · rcases List.mem_cons.mp h with rfl | h
            · exact Or.inr (Or.inr rfl)
            · exact Or.inl (hYd c h)
    rcases hM with hM1 | hM2
    · obtain ⟨m1, rfl⟩ := list_len1 M hM1
      have hm1 := hMd m1 (by simp)
      rcases hD with hD1 | hD2
      · obtain ⟨d1, rfl⟩ := list_len1 D hD1
        have hd1 := hDd d1 (by simp)
        rw [_normalize_date, if_neg (by exact mk_ne_empty _ _), cleanList_mk _ hin]
        simp [searchP, matchP1At, matchP2At, digits4, expectChar, d12Sep, d12End,
          hm1, hd1, hy1, hy2, hy3, hy4, slash_isDigit, dash_isDigit, fmtYMD,
      (digit_nsep m1 hm1).1, (digit_nsep m1 hm1).2, (digit_nsep d1 hd1).1, (digit_nsep d1 hd1).2, (digit_nsep y1 hy1).1, (digit_nsep y1 hy1).2, (digit_nsep y2 hy2).1, (digit_nsep y2 hy2).2, (digit_nsep y3 hy3).1, (digit_nsep y3 hy3).2, (digit_nsep y4 hy4).1, (digit_nsep y4 hy4).2]
      · obtain ⟨d1, d2, rfl⟩ := list_len2 D hD2
        have hd1 := hDd d1 (by simp)
        have hd2 := hDd d2 (by simp)
        rw [_normalize_date, if_neg (by exact mk_ne_empty _ _), cleanList_mk _ hin]
        simp [searchP, matchP1At, matchP2At, digits4, expectChar, d12Sep, d12End,
          hm1, hd1, hd2, hy1, hy2, hy3, hy4, slash_isDigit, dash_isDigit, fmtYMD,
      (digit_nsep m1 hm1).1, (digit_nsep m1 hm1).2, (digit_nsep d1 hd1).1, (digit_nsep d1 hd1).2, (digit_nsep d2 hd2).1, (digit_nsep d2 hd2).2, (digit_nsep y1 hy1).1, (digit_nsep y1 hy1).2, (digit_nsep y2 hy2).1, (digit_nsep y2 hy2).2, (digit_nsep y3 hy3).1, (digit_nsep y3 hy3).2, (digit_nsep y4 hy4).1, (digit_nsep y4 hy4).2]
    · obtain ⟨m1, m2, rfl⟩ := list_len2 M hM2
      have hm1 := hMd m1 (by simp)
      have hm2 := hMd m2 (by simp)
      rcases hD with hD1 | hD2
      · obtain ⟨d1, rfl⟩ := list_len1 D hD1
        have hd1 := hDd d1 (by simp)
        rw [_normalize_date, if_neg (by exact mk_ne_empty _ _), cleanList_mk _ hin]
        simp [searchP, matchP1At, matchP2At, digits4, expectChar, d12Sep, d12End,
          hm1, hm2, hd1, hy1, hy2, hy3, hy4, slash_isDigit, dash_isDigit, fmtYMD,
      (digit_nsep m1 hm1).1, (digit_nsep m1 hm1).2, (digit_nsep m2 hm2).1, (digit_nsep m2 hm2).2, (digit_nsep d1 hd1).1, (digit_nsep d1 hd1).2, (digit_nsep y1 hy1).1, (digit_nsep y1 hy1).2, (digit_nsep y2 hy2).1, (digit_nsep y2 hy2).2, (digit_nsep y3 hy3).1, (digit_nsep y3 hy3).2, (digit_nsep y4 hy4).1, (digit_nsep y4 hy4).2]
      · obtain ⟨d1, d2, rfl⟩ := list_len2 D hD2
        have hd1 := hDd d1 (by simp)
        have hd2 := hDd d2 (by simp)
        rw [_normalize_date, if_neg (by exact mk_ne_empty _ _), cleanList_mk _ hin]
        simp [searchP, matchP1At, matchP2At, digits4, expectChar, d12Sep, d12End,
          hm1, hm2, hd1, hd2, hy1, hy2, hy3, hy4, slash_isDigit, dash_isDigit, fmtYMD,
      (digit_nsep m1 hm1).1, (digit_nsep m1 hm1).2, (digit_nsep m2 hm2).1, (digit_nsep m2 hm2).2, (digit_nsep d1 hd1).1, (digit_nsep d1 hd1).2, (digit_nsep d2 hd2).1, (digit_nsep d2 hd2).2, (digit_nsep y1 hy1).1, (digit_nsep y1 hy1).2, (digit_nsep y2 hy2).1, (digit_nsep y2 hy2).2, (digit_nsep y3 hy3).1, (digit_nsep y3 hy3).2, (digit_nsep y4 hy4).1, (digit_nsep y4 hy4).2]
  · -- dash form: pattern 1 matches at position 0
    have hin : ∀ c ∈ [y1, y2, y3, y4] ++ '-' :: (M ++ '-' :: D), inertChar c := by
      intro c hc
      rcases List.mem_append.mp hc with h | h
      · exact Or.inl (hYd c h)
      · rcases List.mem_cons.mp h with rfl | h
        · exact Or.inr (Or.inl rfl)
        · rcases List.mem_append.mp h with h | h
          · exact Or.inl (hMd c h)
          · rcases List.mem_cons.mp h with rfl | h
            · exact Or.inr (Or.inl rfl)
            · exact Or.inl (hDd c h)
    rcases hM with hM1 | hM2
    · obtain ⟨m1, rfl⟩ := list_len1 M hM1
      have hm1 := hMd m1 (by simp)
      rcases hD with hD1 | hD2
      · obtain ⟨d1, rfl⟩ := list_len1 D hD1
        have hd1 := hDd d1 (by simp)
        rw [_normalize_date, if_neg (by exact mk_ne_empty _ _), cleanList_mk _ hin]
        simp [searchP, matchP1At, digits4, expectChar, d12Sep, d12End,
          hm1, hd1, hy1, hy2, hy3, hy4, slash_isDigit, dash_isDigit, fmtYMD,
      (digit_nsep m1 hm1).1, (digit_nsep m1 hm1).2, (digit_nsep d1 hd1).1, (digit_nsep d1 hd1).2, (digit_nsep y1 hy1).1, (digit_nsep y1 hy1).2, (digit_nsep y2 hy2).1, (digit_nsep y2 hy2).2, (digit_nsep y3 hy3).1, (digit_nsep y3 hy3).2, (digit_nsep y4 hy4).1, (digit_nsep y4 hy4).2]
      · obtain ⟨d1, d2, rfl⟩ := list_len2 D hD2
        have hd1 := hDd d1 (by simp)
        have hd2 := hDd d2 (by simp)
        rw [_normalize_date, if_neg (by exact mk_ne_empty _ _), cleanList_mk _ hin]
        simp [searchP, matchP1At, digits4, expectChar, d12Sep, d12End,
          hm1, hd1, hd2, hy1, hy2, hy3, hy4, slash_isDigit, dash_isDigit, fmtYMD,
      (digit_nsep m1 hm1).1, (digit_nsep m1 hm1).2, (digit_nsep d1 hd1).1, (digit_nsep d1 hd1).2, (digit_nsep d2 hd2).1, (digit_nsep d2 hd2).2, (digit_nsep y1 hy1).1, (digit_nsep y1 hy1).2, (digit_nsep y2 hy2).1, (digit_nsep y2 hy2).2, (digit_nsep y3 hy3).1, (digit_nsep y3 hy3).2, (digit_nsep y4 hy4).1, (digit_nsep y4 hy4).2]
    · obtain ⟨m1, m2, rfl⟩ := list_len2 M hM2
      have hm1 := hMd m1 (by simp)
      have hm2 := hMd m2 (by simp)
      rcases hD with hD1 | hD2
      · obtain ⟨d1, rfl⟩ := list_len1 D hD1
        have hd1 := hDd d1 (by simp)
        rw [_normalize_date, if_neg (by exact mk_ne_empty _ _), cleanList_mk _ hin]
        simp [searchP, matchP1At, digits4, expectChar, d12Sep, d12End,
          hm1, hm2, hd1, hy1, hy2, hy3, hy4, slash_isDigit, dash_isDigit, fmtYMD,
      (digit_nsep m1 hm1).1, (digit_nsep m1 hm1).2, (digit_nsep m2 hm2).1, (digit_nsep m2 hm2).2, (digit_nsep d1 hd1).1, (digit_nsep d1 hd1).2, (digit_nsep y1 hy1).1, (digit_nsep y1 hy1).2, (digit_nsep y2 hy2).1, (digit_nsep y2 hy2).2, (digit_nsep y3 hy3).1, (digit_nsep y3 hy3).2, (digit_nsep y4 hy4).1, (digit_nsep y4 hy4).2]
      · obtain ⟨d1, d2, rfl⟩ := list_len2 D hD2
        have hd1 := hDd d1 (by simp)
        have hd2 := hDd d2 (by simp)
        rw [_normalize_date, if_neg (by exact mk_ne_empty _ _), cleanList_mk _ hin]
        simp [searchP, matchP1At, digits4, expectChar, d12Sep, d12End,
          hm1, hm2, hd1, hd2, hy1, hy2, hy3, hy4, slash_isDigit, dash_isDigit, fmtYMD,
      (digit_nsep m1 hm1).1, (digit_nsep m1 hm1).2, (digit_nsep m2 hm2).1, (digit_nsep m2 hm2).2, (digit_nsep d1 hd1).1, (digit_nsep d1 hd1).2, (digit_nsep d2 hd2).1, (digit_nsep d2 hd2).2, (digit_nsep y1 hy1).1, (digit_nsep y1 hy1).2, (digit_nsep y2 hy2).1, (digit_nsep y2 hy2).2, (digit_nsep y3 hy3).1, (digit_nsep y3 hy3).2, (digit_nsep y4 hy4).1, (digit_nsep y4 hy4).2]

/-- C5: missing components are completed — a bare 4-digit year `Y`
normalizes to `Y-01-01`, a year-month `Y-M` (unpadded month) normalizes to
`Y-{M:02d}-01`, the empty string maps to the empty string, and filler
words are stripped first so that `"founded in 1999"` yields
`"1999-01-01"`.  (The theorem is stated for any 1-2 digit month, which
subsumes the claim's `M` from 1 to 12.) -/
theorem c5_completion_defaults (Y M : List Char)
    (hY : Y.length = 4) (hYd : ∀ c ∈ Y, c.isDigit = true)
    (hM : M.length = 1 ∨ M.length = 2) (hMd : ∀ c ∈ M, c.isDigit = true) :
    _normalize_date (String.mk Y) = String.mk Y ++ "-01-01" ∧
    _normalize_date (String.mk (Y ++ '-' :: M)) =
      String.mk Y ++ "-" ++ zfill2 (String.mk M) ++ "-01" ∧
    _normalize_date "" = "" ∧
    _normalize_date "founded in 1999" = "1999-01-01" := by
  obtain ⟨y1, y2, y3, y4, rfl⟩ := list_len4 Y hY
  obtain ⟨hy1, hy2, hy3, hy4⟩ : y1.isDigit = true ∧ y2.isDigit = true ∧
      y3.isDigit = true ∧ y4.isDigit = true := by
    refine ⟨hYd y1 ?_, hYd y2 ?_, hYd y3 ?_, hYd y4 ?_⟩ <;> simp
  refine ⟨?_, ?_, rfl, by decide⟩
  · have hin : ∀ c ∈ [y1, y2, y3, y4], inertChar c := fun c hc => Or.inl (hYd c hc)
    rw [_normalize_date, if_neg (by exact mk_ne_empty _ _), cleanList_mk _ hin]
    simp [searchP, matchP1At, matchP2At, matchP3At, matchP4At, matchP5At,
      digits4, expectChar, d12Sep, d12End, hy1, hy2, hy3, hy4,
      slash_isDigit, dash_isDigit,
      (digit_nsep y1 hy1).1, (digit_nsep y1 hy1).2, (digit_nsep y2 hy2).1, (digit_nsep y2 hy2).2, (digit_nsep y3 hy3).1, (digit_nsep y3 hy3).2, (digit_nsep y4 hy4).1, (digit_nsep y4 hy4).2]
  · have hin : ∀ c ∈ [y1, y2, y3, y4] ++ '-' :: M, inertChar c := by
      intro c hc
      rcases List.mem_append.mp hc with h | h
      · exact Or.inl (hYd c h)
      · rcases List.mem_cons.mp h with rfl | h
        · exact Or.inr (Or.inl rfl)
        · exact Or.inl (hMd c h)
    rcases hM with hM1 | hM2
    · obtain ⟨m1, rfl⟩ := list_len1 M hM1
      have hm1 := hMd m1 (by simp)
      rw [_normalize_date, if_neg (by exact mk_ne_empty _ _), cleanList_mk _ hin]
      simp [searchP, matchP1At, matchP2At, matchP3At, matchP4At,
        digits4, expectChar, d12Sep, d12End, hm1, hy1, hy2, hy3, hy4,
        slash_isDigit, dash_isDigit,
      (digit_nsep m1 hm1).1, (digit_nsep m1 hm1).2, (digit_nsep y1 hy1).1, (digit_nsep y1 hy1).2, (digit_nsep y2 hy2).1, (digit_nsep y2 hy2).2, (digit_nsep y3 hy3).1, (digit_nsep y3 hy3).2, (digit_nsep y4 hy4).1, (digit_nsep y4 hy4).2]
    · obtain ⟨m1, m2, rfl⟩ := list_len2 M hM2
      have hm1 := hMd m1 (by simp)
      have hm2 := hMd m2 (by simp)
      rw [_normalize_date, if_neg (by exact mk_ne_empty _ _), cleanList_mk _ hin]
      simp [searchP, matchP1At, matchP2At, matchP3At, matchP4At,
        digits4, expectChar, d12Sep, d12End, hm1, hm2, hy1, hy2, hy3, hy4,
        slash_isDigit, dash_isDigit,
      (digit_nsep m1 hm1).1, (digit_nsep m1 hm1).2, (digit_nsep m2 hm2).1, (digit_nsep m2 hm2).2, (digit_nsep y1 hy1).1, (digit_nsep y1 hy1).2, (digit_nsep y2 hy2).1, (digit_nsep y2 hy2).2, (digit_nsep y3 hy3).1, (digit_nsep y3 hy3).2, (digit_nsep y4 hy4).1, (digit_nsep y4 hy4).2]

/-! ## Claims C2 and C3: the no-match fallback -/

/-- When no pattern matches, every one of the five searches is `none` and
`_normalize_date` reaches the fallback of source line 137, which returns
the ORIGINAL argument `date_str`, not the cleaned string. -/
theorem normalize_of_not_found (s : String) (h : datePatternFound s = false) :
    _normalize_date s = s := by
  by_cases hs : s = ""
  · rw [hs]; rfl
  · unfold datePatternFound at h
    simp only [Bool.or_eq_false_iff] at h
    obtain ⟨⟨⟨⟨h1, h2⟩, h3⟩, h4⟩, h5⟩ := h
    have e1 : searchP matchP1At (cleanList s) = Option.none :=
      Option.not_isSome_iff_eq_none.mp (by simp [h1])
    have e2 : searchP matchP2At (cleanList s) = Option.none :=
      Option.not_isSome_iff_eq_none.mp (by simp [h2])
    have e3 : searchP matchP3At (cleanList s) = Option.none :=
      Option.not_isSome_iff_eq_none.mp (by simp [h3])
    have e4 : searchP matchP4At (cleanList s) = Option.none :=
      Option.not_isSome_iff_eq_none.mp (by simp [h4])
    have e5 : searchP matchP5At (cleanList s) = Option.none :=
      Option.not_isSome_iff_eq_none.mp (by simp [h5])
    unfold _normalize_date
    rw [if_neg hs, e1, e2, e3, e4, e5]

/-- C3: `_normalize_date` is total — applied to any string value it never
raises (for a string argument `normalizeDateVal` always returns `some`);
an empty or absent (`None`) input yields `""`; and on a non-empty input
that no pattern matches it returns the input string unchanged. -/
theorem c3_normalize_total (s : String) :
    normalizeDateVal (PyVal.str s) = some (_normalize_date s) ∧
    normalizeDateVal PyVal.none = some "" ∧
    (s = "" → _normalize_date s = "") ∧
    (datePatternFound s = false → _normalize_date s = s) :=
  ⟨rfl, rfl, fun h => by rw [h]; rfl, fun h => normalize_of_not_found s h⟩

/-- Witness for C3 at the concrete no-match input `"not a date"`. -/
theorem c3_witness :
    _normalize_date "not a date" = "not a date" ∧ _normalize_date "" = "" :=
  ⟨(c3_normalize_total "not a date").2.2.2 (by decide),
   (c3_normalize_total "").2.2.1 rfl⟩

/-- C2 counterexample: `"founded abc"` is non-empty, no pattern matches it,
its cleaned form is `"abc"` — but `_normalize_date` returns the raw input
`"founded abc"`, not the cleaned string the claim requires. -/
theorem c2_counterexample :
    datePatternFound "founded abc" = false ∧
    clean_date "founded abc" = "abc" ∧
    _normalize_date "founded abc" = "founded abc" ∧
    ("founded abc" : String) ≠ "abc" :=
  ⟨by decide, by decide, by decide, by decide⟩

/-- C2 as amended: on a non-empty input that no pattern matches,
`_normalize_date` returns the ORIGINAL raw input string verbatim (source
line 137 returns `date_str`, not the cleaned string). -/
theorem c2_amended_fallback_returns_raw (s : String) (_hne : s ≠ "")
    (h : datePatternFound s = false) : _normalize_date s = s :=
  normalize_of_not_found s h

/-- Witness for the amended C2. -/
theorem c2_witness : _normalize_date "established xyz" = "established xyz" :=
  c2_amended_fallback_returns_raw "established xyz" (by decide) (by decide)

/-- Witness for C4 at `Y = 1999`, `M = 5`, `D = 7`. -/
theorem c4_witness :
    _normalize_date (String.mk (['5'] ++ '/' :: (['7'] ++ '/' :: ['1', '9', '9', '9']))) =
      String.mk ['1', '9', '9', '9'] ++ "-" ++ zfill2 (String.mk ['5']) ++ "-" ++
        zfill2 (String.mk ['7']) ∧
    _normalize_date (String.mk (['1', '9', '9', '9'] ++ '-' :: (['5'] ++ '-' :: ['7']))) =
      String.mk ['1', '9', '9', '9'] ++ "-" ++ zfill2 (String.mk ['5']) ++ "-" ++
        zfill2 (String.mk ['7']) :=
  c4_cross_format_equivalence ['1', '9', '9', '9'] ['5'] ['7'] rfl (by decide)
    (Or.inl rfl) (by decide) (Or.inl rfl) (by decide)

/-- Witness for C5 at `Y = 2020`, `M = 5`. -/
theorem c5_witness :
    _normalize_date (String.mk ['2', '0', '2', '0']) =
      String.mk ['2', '0', '2', '0'] ++ "-01-01" ∧
    _normalize_date (String.mk (['2', '0', '2', '0'] ++ '-' :: ['5'])) =
      String.mk ['2', '0', '2', '0'] ++ "-" ++ zfill2 (String.mk ['5']) ++ "-01" ∧
    _normalize_date "" = "" ∧
    _normalize_date "founded in 1999" = "1999-01-01" :=
  c5_completion_defaults ['2', '0', '2', '0'] ['5'] rfl (by decide) (Or.inl rfl)
    (by decide)

/-! ## Claims C1, C6, C7, C8, C9: pipeline, validator and exporter -/

/-- C1: when the extraction service fails on the first of two paragraphs
and succeeds on the second, `process_text_direct` catches the failure,
skips that paragraph, continues, and returns exactly the second
paragraph's records — no exception reaches the caller (the final CSV save
of those records is assumed to succeed; its failure mode is claim C8). -/
theorem c1_run_isolates_service_failures
    (service : String → Except String PyVal) (openF : Except String Unit)
    (writeF : String → Except String Unit) (text p1 p2 e : String) (r : PyVal)
    (hsplit : splitParagraphs text = [p1, p2])
    (h1 : service p1 = Except.error e)
    (h2 : service p2 = Except.ok r)
    (hsave : _save_companies_to_csv openF writeF (extractParagraphRecords r) =
      Except.ok ()) :
    process_text_direct service openF writeF text =
      Except.ok (extractParagraphRecords r) := by
  unfold process_text_direct
  rw [hsplit]
  simp [collectRecords, h1, h2, hsave]

/-- Witness for C1: a concrete two-paragraph run with a service that
raises on paragraph `"A"` and succeeds on paragraph `"B"`. -/
theorem c1_witness :
    process_text_direct
      (fun p => if p = "A" then Except.error "boom"
        else Except.ok (PyVal.dict [("companies",
          PyVal.list [PyVal.dict [("company_name", PyVal.str "Acme")]])]))
      (Except.ok ()) (fun _ => Except.ok ()) "A\n\nB" =
      Except.ok (extractParagraphRecords (PyVal.dict [("companies",
        PyVal.list [PyVal.dict [("company_name", PyVal.str "Acme")]])])) :=
  c1_run_isolates_service_failures
    (fun p => if p = "A" then Except.error "boom"
      else Except.ok (PyVal.dict [("companies",
        PyVal.list [PyVal.dict [("company_name", PyVal.str "Acme")]])]))
    (Except.ok ()) (fun _ => Except.ok ()) "A\n\nB" "A" "B" "boom"
    (PyVal.dict [("companies",
      PyVal.list [PyVal.dict [("company_name", PyVal.str "Acme")]])])
    (by decide) rfl rfl rfl

/-- C6 counterexample: with `companies = [7, {good entry}]` the non-mapping
element `7` raises `AttributeError`, the paragraph-level handler catches
it, and the GOOD entry after it is dropped — the paragraph contributes no
records, although the same good entry alone yields one record.  This
falsifies "all remaining elements of the same paragraph are still
processed and their records kept". -/
theorem c6_counterexample :
    extractParagraphRecords (PyVal.dict [("companies", PyVal.list
      [PyVal.int 7, PyVal.dict [("company_name", PyVal.str "Acme")]])]) = [] ∧
    extractParagraphRecords (PyVal.dict [("companies", PyVal.list
      [PyVal.dict [("company_name", PyVal.str "Acme")]])]) =
      [{ company_name := PyVal.str "Acme", founding_date := "",
         founders := PyVal.list [] }] :=
  ⟨rfl, rfl⟩

/-- Helper for the amended C6: a non-mapping element truncates the
paragraph's record list at its position. -/
theorem takeRecords_truncates (l1 l2 : List PyVal) (v : PyVal)
    (hgood : ∀ x ∈ l1, ∃ d, x = PyVal.dict d ∧ (mkCompany d).isSome = true)
    (hbad : ∀ d, v ≠ PyVal.dict d) :
    takeRecords (l1 ++ v :: l2) = takeRecords l1 := by
  induction l1 with
  | nil =>
    simp only [List.nil_append]
    cases v with
    | dict d => exact absurd rfl (hbad d)
    | none => rfl
    | bool b => rfl
    | int n => rfl
    | str s => rfl
    | list l => rfl
  | cons x rest ih =>
    obtain ⟨d, rfl, hsome⟩ := hgood x (by simp)
    obtain ⟨c, hc⟩ := Option.isSome_iff_exists.mp hsome
    simp only [List.cons_append, takeRecords, hc]
    exact congrArg (fun t => c :: t) (ih (fun y hy => hgood y (by simp [hy])))

/-- C6 as amended: a non-mapping-shaped element of `companies` raises
inside the per-paragraph loop; the paragraph-level handler catches it, so
the records of the entries BEFORE the malformed element are kept and the
remainder of that paragraph's entries is dropped (other paragraphs are
unaffected, as proved in C1's theorem). -/
theorem c6_amended_malformed_entry_truncates
    (l1 l2 : List PyVal) (v : PyVal)
    (hgood : ∀ x ∈ l1, ∃ d, x = PyVal.dict d ∧ (mkCompany d).isSome = true)
    (hbad : ∀ d, v ≠ PyVal.dict d) :
    extractParagraphRecords (PyVal.dict
      [("companies", PyVal.list (l1 ++ v :: l2))]) = takeRecords l1 := by
  have hstep : extractParagraphRecords (PyVal.dict
      [("companies", PyVal.list (l1 ++ v :: l2))]) =
      takeRecords (l1 ++ v :: l2) := rfl
  rw [hstep]
  exact takeRecords_truncates l1 l2 v hgood hbad

/-- Witness for the amended C6: one good entry followed by a malformed
`7`. -/
theorem c6_witness :
    extractParagraphRecords (PyVal.dict [("companies", PyVal.list
      ([PyVal.dict [("company_name", PyVal.str "Acme")]] ++ PyVal.int 7 :: []))]) =
      takeRecords [PyVal.dict [("company_name", PyVal.str "Acme")]] :=
  c6_amended_malformed_entry_truncates
    [PyVal.dict [("company_name", PyVal.str "Acme")]] [] (PyVal.int 7)
    (fun x hx => ⟨[("company_name", PyVal.str "Acme")],
      by simpa using hx, rfl⟩)
    (fun d h => PyVal.noConfusion h)

/-- C7 counterexample: for the mapping-shaped entry
`{"founders": 42}` the record is built with `founders = 42` — the
non-sequence value is propagated into the record verbatim, NOT coerced to
the empty sequence as the claim requires. -/
theorem c7_counterexample :
    mkCompany [("founders", PyVal.int 42)] =
      some { company_name := PyVal.str "", founding_date := "",
             founders := PyVal.int 42 } ∧
    PyVal.int 42 ≠ PyVal.list [] :=
  ⟨rfl, fun h => PyVal.noConfusion h⟩

/-- C7 as amended: for every mapping-shaped entry whose founding-date
value is a string (this includes the absent-key case, whose default is
`""`), the record is built with `company_name` defaulting to `""`,
`founding_date` defaulting to `""` and passed through the Date Normalizer,
and `founders` defaulting to `[]` — but a present non-sequence `founders`
value is propagated into the record unchanged (there is no coercion in
source lines 207-211). -/
theorem c7_amended_founders_propagated (d : List (String × PyVal)) (fd : String)
    (h : dictGet d "founding_date" (PyVal.str "") = PyVal.str fd) :
    mkCompany d =
      some { company_name := dictGet d "company_name" (PyVal.str ""),
             founding_date := _normalize_date fd,
             founders := dictGet d "founders" (PyVal.list []) } := by
  unfold mkCompany
  rw [h]
  rfl

/-- Witness for the amended C7: a non-sequence founders value (a bare
string) is stored in the record as-is. -/
theorem c7_witness :
    mkCompany [("founders", PyVal.str "Jane")] =
      some { company_name :=
               dictGet [("founders", PyVal.str "Jane")] "company_name" (PyVal.str ""),
             founding_date := _normalize_date "",
             founders :=
               dictGet [("founders", PyVal.str "Jane")] "founders" (PyVal.list []) } :=
  c7_amended_founders_propagated [("founders", PyVal.str "Jane")] "" rfl

/-- C8 counterexample: a run in which every service call succeeds but the
CSV export fails to open the output file raises that error to the caller —
`process_text_direct` does NOT return the accumulated records, because the
call to `_save_companies_to_csv` (source line 218) is outside any
try/except and `_save_companies_to_csv` itself has none. -/
theorem c8_counterexample :
    process_text_direct
      (fun _ => Except.ok (PyVal.dict [("companies", PyVal.list [])]))
      (Except.error "disk full") (fun _ => Except.ok ())
      "Acme Corp was founded in 1999 by Jane Doe." =
      Except.error "disk full" := rfl

/-- C8 as amended: the pipeline always completes and returns the
accumulated records PROVIDED the final CSV export succeeds; when the
export raises (e.g. an I/O failure), that exception propagates to the
caller instead of the records. -/
theorem c8_amended_export_failure_propagates
    (service : String → Except String PyVal) (openF : Except String Unit)
    (writeF : String → Except String Unit) (text : String) :
    (_save_companies_to_csv openF writeF
        (collectRecords service (splitParagraphs text)) = Except.ok () →
      process_text_direct service openF writeF text =
        Except.ok (collectRecords service (splitParagraphs text))) ∧
    (∀ e, _save_companies_to_csv openF writeF
        (collectRecords service (splitParagraphs text)) = Except.error e →
      process_text_direct service openF writeF text = Except.error e) := by
  constructor
  · intro h; unfold process_text_direct; rw [h]
  · intro e h; unfold process_text_direct; rw [h]

/-- Witness for the amended C8: a failing `open` propagates its error. -/
theorem c8_witness :
    process_text_direct (fun _ => Except.ok PyVal.none) (Except.error "boom")
      (fun _ => Except.ok ()) "A" = Except.error "boom" :=
  (c8_amended_export_failure_propagates (fun _ => Except.ok PyVal.none)
    (Except.error "boom") (fun _ => Except.ok ()) "A").2 "boom" rfl

/-- C9: the `save_to_csv` tool never raises past its boundary — for every
file-system behavior, record sequence and destination it returns either a
success status containing the count of records written, or a failure
status carrying the underlying error's description; in particular an I/O
failure on open is reported as `"Error saving to CSV: <e>"`. -/
theorem c9_save_tool_status (openF : Except String Unit)
    (writeF : String → Except String Unit) (data : List PyVal) (fn : String) :
    ((∃ e, save_to_csv openF writeF data fn = "Error saving to CSV: " ++ e) ∨
      save_to_csv openF writeF data fn =
        "Successfully saved " ++ toString data.length ++ " companies to " ++ fn) ∧
    (∀ e, openF = Except.error e →
      save_to_csv openF writeF data fn = "Error saving to CSV: " ++ e) ∧
    (saveAttempt openF writeF data = Except.ok () →
      save_to_csv openF writeF data fn =
        "Successfully saved " ++ toString data.length ++ " companies to " ++ fn) := by
  refine ⟨?_, ?_, ?_⟩
  · cases h : saveAttempt openF writeF data with
    | ok u => right; unfold save_to_csv; rw [h]
    | error e => exact Or.inl ⟨e, by unfold save_to_csv; rw [h]⟩
  · intro e he; unfold save_to_csv saveAttempt; rw [he]
  · intro h; unfold save_to_csv; rw [h]

/-- Witness for C9: a failing open yields the failure status string. -/
theorem c9_witness :
    save_to_csv (Except.error "disk full") (fun _ => Except.ok ()) []
      "company_info.csv" = "Error saving to CSV: " ++ "disk full" :=
  (c9_save_tool_status (Except.error "disk full") (fun _ => Except.ok ()) []
    "company_info.csv").2.1 "disk full" rfl

/-! ## Claim C10: canonical output shape -/

/-- A string of exactly `n` digit characters (shape of a capture group). -/
def digitsStr (s : String) (n : Nat) : Prop :=
  s.toList.length = n ∧ ∀ c ∈ s.toList, c.isDigit = true

/-- A successful search comes from a successful match at some position. -/
theorem searchP_inv {α : Type} (m : List Char → Option α) (cs : List Char)
    (r : α) (h : searchP m cs = some r) : ∃ cs2, m cs2 = some r := by
  induction cs with
  | nil => exact ⟨[], h⟩
  | cons c rest ih =>
    unfold searchP at h
    cases hx : m (c :: rest) with
    | some v =>
      rw [hx] at h
      simp only [] at h
      exact ⟨c :: rest, by rw [hx, h]⟩
    | none =>
      rw [hx] at h
      exact ih h

/-- A `(\d{4})` group is four digit characters. -/
theorem digits4_inv (cs : List Char) (p : List Char × List Char)
    (h : digits4 cs = some p) :
    p.1.length = 4 ∧ ∀ c ∈ p.1, c.isDigit = true := by
  cases cs with
  | nil => exact absurd h (by simp [digits4])
  | cons a t1 => cases t1 with
    | nil => exact absurd h (by simp [digits4])
    | cons b t2 => cases t2 with
      | nil => exact absurd h (by simp [digits4])
      | cons c t3 => cases t3 with
        | nil => exact absurd h (by simp [digits4])
        | cons d t4 =>
          simp only [digits4] at h
          split_ifs at h with hcond
          · simp only [Option.some.injEq] at h
            subst h
            simp only [Bool.and_eq_true] at hcond
            obtain ⟨⟨⟨ha, hb⟩, hc⟩, hd⟩ := hcond
            refine ⟨rfl, ?_⟩
            intro x hx
            simp only [List.mem_cons, List.not_mem_nil, or_false] at hx
            rcases hx with rfl | rfl | rfl | rfl
            · exact ha
            · exact hb
            · exact hc
            · exact hd

/-- A `(\d{1,2})` group (followed by a separator) is one or two digit
characters. -/
theorem d12Sep_inv (sep : Char) (cs : List Char) (p : List Char × List Char)
    (h : d12Sep sep cs = some p) :
    (p.1.length = 1 ∨ p.1.length = 2) ∧ ∀ c ∈ p.1, c.isDigit = true := by
  cases cs with
  | nil => exact absurd h (by simp [d12Sep])
  | cons a t1 => cases t1 with
    | nil => exact absurd h (by simp [d12Sep])
    | cons b t2 => cases t2 with
      | nil =>
        simp only [d12Sep] at h
        split_ifs at h with hcond
        · simp only [Option.some.injEq] at h
          subst h
          simp only [Bool.and_eq_true] at hcond
          refine ⟨Or.inl rfl, ?_⟩
          intro x hx
          simp only [List.mem_singleton] at hx
          subst hx
          exact hcond.1
      | cons c t3 =>
        simp only [d12Sep] at h
        split_ifs at h with h1 h2 h3
        · simp only [Option.some.injEq] at h
          subst h
          simp only [Bool.and_eq_true] at h2
          refine ⟨Or.inr rfl, ?_⟩
          intro x hx
          simp only [List.mem_cons, List.not_mem_nil, or_false] at hx
          rcases hx with rfl | rfl
          · exact h1
          · exact h2.1
        · simp only [Option.some.injEq] at h
          subst h
          refine ⟨Or.inl rfl, ?_⟩
          intro x hx
          simp only [List.mem_singleton] at hx
          subst hx
          exact h1

/-- A trailing `(\d{1,2})` group is one or two digit characters. -/
theorem d12End_inv (cs : List Char) (p : List Char × List Char)
    (h : d12End cs = some p) :
    (p.1.length = 1 ∨ p.1.length = 2) ∧ ∀ c ∈ p.1, c.isDigit = true := by
  cases cs with
  | nil => exact absurd h (by simp [d12End])
  | cons a t1 => cases t1 with
    | nil =>
      simp only [d12End] at h
      split_ifs at h with h1
      · simp only [Option.some.injEq] at h
        subst h
        refine ⟨Or.inl rfl, ?_⟩
        intro x hx
        simp only [List.mem_singleton] at hx
        subst hx
        exact h1
    | cons b t2 =>
      simp only [d12End] at h
      split_ifs at h with h1 h2
      · simp only [Option.some.injEq] at h
        subst h
        refine ⟨Or.inr rfl, ?_⟩
        intro x hx
        simp only [List.mem_cons, List.not_mem_nil, or_false] at hx
        rcases hx with rfl | rfl
        · exact h1
        · exact h2
      · simp only [Option.some.injEq] at h
        subst h
        refine ⟨Or.inl rfl, ?_⟩
        intro x hx
        simp only [List.mem_singleton] at hx
        subst hx
        exact h1

/-- Shapes of the capture groups of pattern 1. -/
theorem matchP1At_shape (cs : List Char) (y m d : String)
    (h : matchP1At cs = some (y, m, d)) :
    digitsStr y 4 ∧
    ((digitsStr m 1 ∨ digitsStr m 2) ∧ (digitsStr d 1 ∨ digitsStr d 2)) := by
  simp only [matchP1At, bind, Option.bind_eq_some, Option.some.injEq,
    Prod.mk.injEq, pure, Option.some.injEq] at h
  obtain ⟨⟨ys, r1⟩, hx1, r2, hx2, ⟨ms, r3⟩, hx3, ⟨ds, r4⟩, hx4, hy, hm, hd⟩ := h
  subst hy; subst hm; subst hd
  obtain ⟨hl4, hd4⟩ := digits4_inv cs (ys, r1) hx1
  obtain ⟨hlm, hdm⟩ := d12Sep_inv '-' r2 (ms, r3) hx3
  obtain ⟨hld, hdd⟩ := d12End_inv r3 (ds, r4) hx4
  refine ⟨⟨hl4, hd4⟩, ⟨?_, ?_⟩⟩
  · rcases hlm with h1 | h2
    · exact Or.inl ⟨h1, hdm⟩
    · exact Or.inr ⟨h2, hdm⟩
  · rcases hld with h1 | h2
    · exact Or.inl ⟨h1, hdd⟩
    · exact Or.inr ⟨h2, hdd⟩

/-- Shapes of the capture groups of pattern 2 (month, day, year order). -/
theorem matchP2At_shape (cs : List Char) (m d y : String)
    (h : matchP2At cs = some (m, d, y)) :
    digitsStr y 4 ∧
    ((digitsStr m 1 ∨ digitsStr m 2) ∧ (digitsStr d 1 ∨ digitsStr d 2)) := by
  simp only [matchP2At, bind, Option.bind_eq_some, Option.some.injEq,
    Prod.mk.injEq, pure] at h
  obtain ⟨⟨ms, r1⟩, hx1, ⟨ds, r2⟩, hx2, ⟨ys, r3⟩, hx3, hm, hd, hy⟩ := h
  subst hm; subst hd; subst hy
  obtain ⟨hlm, hdm⟩ := d12Sep_inv '/' cs (ms, r1) hx1
  obtain ⟨hld, hdd⟩ := d12Sep_inv '/' r1 (ds, r2) hx2
  obtain ⟨hl4, hd4⟩ := digits4_inv r2 (ys, r3) hx3
  refine ⟨⟨hl4, hd4⟩, ⟨?_, ?_⟩⟩
  · rcases hlm with h1 | h2
    · exact Or.inl ⟨h1, hdm⟩
    · exact Or.inr ⟨h2, hdm⟩
  · rcases hld with h1 | h2
    · exact Or.inl ⟨h1, hdd⟩
    · exact Or.inr ⟨h2, hdd⟩

/-- Shapes of the capture groups of pattern 3. -/
theorem matchP3At_shape (cs : List Char) (y m d : String)
    (h : matchP3At cs = some (y, m, d)) :
    digitsStr y 4 ∧
    ((digitsStr m 1 ∨ digitsStr m 2) ∧ (digitsStr d 1 ∨ digitsStr d 2)) := by
  simp only [matchP3At, bind, Option.bind_eq_some, Option.some.injEq,
    Prod.mk.injEq, pure] at h
  obtain ⟨⟨ys, r1⟩, hx1, r2, hx2, ⟨ms, r3⟩, hx3, ⟨ds, r4⟩, hx4, hy, hm, hd⟩ := h
  subst hy; subst hm; subst hd
  obtain ⟨hl4, hd4⟩ := digits4_inv cs (ys, r1) hx1
  obtain ⟨hlm, hdm⟩ := d12Sep_inv '/' r2 (ms, r3) hx3
  obtain ⟨hld, hdd⟩ := d12End_inv r3 (ds, r4) hx4
  refine ⟨⟨hl4, hd4⟩, ⟨?_, ?_⟩⟩
  · rcases hlm with h1 | h2
    · exact Or.inl ⟨h1, hdm⟩
    · exact Or.inr ⟨h2, hdm⟩
  · rcases hld with h1 | h2
    · exact Or.inl ⟨h1, hdd⟩
    · exact Or.inr ⟨h2, hdd⟩

/-- Shapes of the capture groups of pattern 4. -/
theorem matchP4At_shape (cs : List Char) (y m : String)
    (h : matchP4At cs = some (y, m)) :
    digitsStr y 4 ∧ (digitsStr m 1 ∨ digitsStr m 2) := by
  simp only [matchP4At, bind, Option.bind_eq_some, Option.some.injEq,
    Prod.mk.injEq, pure] at h
  obtain ⟨⟨ys, r1⟩, hx1, r2, hx2, ⟨ms, r3⟩, hx3, hy, hm⟩ := h
  subst hy; subst hm
  obtain ⟨hl4, hd4⟩ := digits4_inv cs (ys, r1) hx1
  obtain ⟨hlm, hdm⟩ := d12End_inv r2 (ms, r3) hx3
  refine ⟨⟨hl4, hd4⟩, ?_⟩
  rcases hlm with h1 | h2
  · exact Or.inl ⟨h1, hdm⟩
  · exact Or.inr ⟨h2, hdm⟩

/-- Shape of the capture group of pattern 5. -/
theorem matchP5At_shape (cs : List Char) (y : String)
    (h : matchP5At cs = some y) : digitsStr y 4 := by
  simp only [matchP5At, bind, Option.bind_eq_some, pure, Option.some.injEq] at h
  obtain ⟨⟨ys, r1⟩, hx1, hy⟩ := h
  subst hy
  exact digits4_inv cs (ys, r1) hx1

/-- `toList` distributes over string append. -/
theorem toList_append (s t : String) : (s ++ t).toList = s.toList ++ t.toList :=
  String.data_append s t

/-- `String.length` is the length of the character list. -/
theorem string_length_toList (s : String) : s.length = s.toList.length := rfl

/-- Zero-padding a one- or two-digit group yields exactly two digits. -/
theorem zfill2_two_digits (s : String) (h : digitsStr s 1 ∨ digitsStr s 2) :
    ∃ a b, (zfill2 s).toList = [a, b] ∧ a.isDigit = true ∧ b.isDigit = true := by
  rcases h with ⟨hl, hd⟩ | ⟨hl, hd⟩
  · obtain ⟨a, ha⟩ := list_len1 s.toList hl
    refine ⟨'0', a, ?_, by decide, hd a (by rw [ha]; simp)⟩
    unfold zfill2
    rw [if_neg (by rw [string_length_toList, hl]; omega),
        if_pos (by rw [string_length_toList, hl])]
    rw [toList_append, ha]
    rfl
  · obtain ⟨a, b, hab⟩ := list_len2 s.toList hl
    refine ⟨a, b, ?_, hd a (by rw [hab]; simp), hd b (by rw [hab]; simp)⟩
    unfold zfill2
    rw [if_pos (by rw [string_length_toList, hl])]
    exact hab

/-- The emitted `f"{year}-{month.zfill(2)}-{day.zfill(2)}"` string has the
canonical `\d{4}-\d{2}-\d{2}` shape whenever the groups have the shapes
the patterns guarantee. -/
theorem isCanonicalDate_fmt (y m d : String) (hy : digitsStr y 4)
    (hm : digitsStr m 1 ∨ digitsStr m 2) (hd : digitsStr d 1 ∨ digitsStr d 2) :
    isCanonicalDate (fmtYMD y m d) = true := by
  obtain ⟨hyl, hyd⟩ := hy
  obtain ⟨a, b, c, dd, hys⟩ := list_len4 y.toList hyl
  have ha := hyd a (by rw [hys]; simp)
  have hb := hyd b (by rw [hys]; simp)
  have hc := hyd c (by rw [hys]; simp)
  have hdd := hyd dd (by rw [hys]; simp)
  obtain ⟨m1, m2, hmt, hm1, hm2⟩ := zfill2_two_digits m hm
  obtain ⟨d1, d2, hdt, hd1, hd2⟩ := zfill2_two_digits d hd
  unfold fmtYMD isCanonicalDate
  simp only [toList_append, hys, hmt, hdt]
  simp [ha, hb, hc, hdd, hm1, hm2, hd1, hd2]

/-- The literal `"01"` used for missing components is two digits. -/
theorem digitsStr_01 : digitsStr "01" 2 := ⟨rfl, by decide⟩

/-- C10: whenever one of the five patterns matches the cleaned input,
`_normalize_date` returns a string of shape `\d{4}-\d{2}-\d{2}`, built by
zero-padding the captured digit groups with no calendar-range validation —
months above 12 and days above 31 are emitted as-is, e.g.
`normalize("99/99/1999") = "1999-99-99"`. -/
theorem c10_canonical_shape (s : String) (h : datePatternFound s = true) :
    isCanonicalDate (_normalize_date s) = true ∧
    _normalize_date "99/99/1999" = "1999-99-99" := by
  refine ⟨?_, by decide⟩
  have hs : s ≠ "" := by
    intro e; rw [e] at h; exact absurd h (by decide)
  unfold _normalize_date
  rw [if_neg hs]
  cases h1 : searchP matchP1At (cleanList s) with
  | some v =>
    obtain ⟨y, m, d⟩ := v
    obtain ⟨cs2, hmm⟩ := searchP_inv _ _ _ h1
    obtain ⟨hy, hm, hd⟩ := matchP1At_shape cs2 y m d hmm
    exact isCanonicalDate_fmt y m d hy hm hd
  | none =>
  cases h2 : searchP matchP2At (cleanList s) with
  | some v =>
    obtain ⟨m, d, y⟩ := v
    obtain ⟨cs2, hmm⟩ := searchP_inv _ _ _ h2
    obtain ⟨hy, hm, hd⟩ := matchP2At_shape cs2 m d y hmm
    exact isCanonicalDate_fmt y m d hy hm hd
  | none =>
  cases h3 : searchP matchP3At (cleanList s) with
  | some v =>
    obtain ⟨y, m, d⟩ := v
    obtain ⟨cs2, hmm⟩ := searchP_inv _ _ _ h3
    obtain ⟨hy, hm, hd⟩ := matchP3At_shape cs2 y m d hmm
    exact isCanonicalDate_fmt y m d hy hm hd
  | none =>
  cases h4 : searchP matchP4At (cleanList s) with
  | some v =>
    obtain ⟨y, m⟩ := v
    obtain ⟨cs2, hmm⟩ := searchP_inv _ _ _ h4
    obtain ⟨hy, hm⟩ := matchP4At_shape cs2 y m hmm
    have heq : y ++ "-" ++ zfill2 m ++ "-01" = fmtYMD y m "01" := by
      unfold fmtYMD
      rw [show zfill2 "01" = "01" from rfl]
      apply String.ext
      simp [String.data_append]
    show isCanonicalDate (y ++ "-" ++ zfill2 m ++ "-01") = true
    rw [heq]
    exact isCanonicalDate_fmt y m "01" hy hm (Or.inr digitsStr_01)
  | none =>
  cases h5 : searchP matchP5At (cleanList s) with
  | some y =>
    obtain ⟨cs2, hmm⟩ := searchP_inv _ _ _ h5
    have hy := matchP5At_shape cs2 y hmm
    have heq : y ++ "-01-01" = fmtYMD y "01" "01" := by
      unfold fmtYMD
      rw [show zfill2 "01" = "01" from rfl]
      apply String.ext
      simp [String.data_append]
    show isCanonicalDate (y ++ "-01-01") = true
    rw [heq]
    exact isCanonicalDate_fmt y "01" "01" hy (Or.inr digitsStr_01)
      (Or.inr digitsStr_01)
  | none =>
    unfold datePatternFound at h
    rw [h1, h2, h3, h4, h5] at h
    simp at h

/-- Witness for C10 at the range-violating input `"99/99/1999"`. -/
theorem c10_witness :
    isCanonicalDate (_normalize_date "99/99/1999") = true ∧
    _normalize_date "99/99/1999" = "1999-99-99" :=
  c10_canonical_shape "99/99/1999" (by decide)
